import Mathlib

/-!
Shallow embedding of the container-launching tool in `src/app/main.go`
(with the sibling variants `src/unnamed/part_000` and `src/unnamed/part_001`).

The pure parts of the program (image-reference splitting, URL construction,
path joining, the tar-extraction loop, the JSON token decode, the exit-status
translation) are translated into executable Lean functions.  The effectful
parts (HTTP, the on-disk filesystem, the child process) are modelled by an
explicit `World` of responses and an in-memory filesystem `GoFs`, threaded
through a step-by-step translation of `main`.

Go library semantics that the program relies on are modelled explicitly:
  * `strings.Split` with a one-character separator (`splitChar`);
  * `path/filepath.Clean`, `Join`, `Dir`, `Base` as lexical operations on
    `/`-separated components (faithful for the cleaned, slash-normal paths
    the program uses);
  * `os.MkdirAll`, `os.OpenFile`, `os.Create`, `os.Chmod` over the
    in-memory filesystem, including the distinction between
    `O_CREATE|O_RDWR` (no truncation; permission argument applies only at
    creation) and `O_CREATE|O_TRUNC`;
  * `encoding/json` decoding of the token response into a struct whose
    absent field yields the zero value `""`;
  * `defer` running on normal return and on panic but not across `os.Exit`.
-/

/-- Accumulator form of Go `strings.Split` with a one-character separator. -/
def splitCharAux (sep : Char) : List Char → List Char → List String
  | [], acc => [String.mk acc.reverse]
  | c :: cs, acc =>
    if c = sep then String.mk acc.reverse :: splitCharAux sep cs []
    else splitCharAux sep cs (c :: acc)

/-- Go `strings.Split(s, sep)` for a one-character separator `sep`. -/
def splitChar (sep : Char) (s : String) : List String :=
  splitCharAux sep s.toList []

/-- Whether a path is rooted (starts with a slash). -/
def isRooted (s : String) : Bool :=
  match s.toList with
  | '/' :: _ => true
  | _ => false

/-- Join path components with slashes (no leading slash). -/
def joinComps : List String → String
  | [] => ""
  | [c] => c
  | c :: cs => c ++ "/" ++ joinComps cs

/-- Core of `filepath.Clean`: process components left to right, dropping
empty and `.` components and resolving `..` lexically (a `..` at the root
of a rooted path is dropped). `out` is the reversed output so far. -/
def cleanCompsAux (rooted : Bool) : List String → List String → List String
  | [], out => out.reverse
  | c :: cs, out =>
    if c = "" ∨ c = "." then cleanCompsAux rooted cs out
    else if c = ".." then
      match out with
      | [] => if rooted then cleanCompsAux rooted cs []
              else cleanCompsAux rooted cs [".."]
      | o :: os => if o = ".." then cleanCompsAux rooted cs (".." :: o :: os)
                   else cleanCompsAux rooted cs os
    else cleanCompsAux rooted cs (c :: out)

/-- The cleaned component list of a path. -/
def cleanedComps (p : String) : List String :=
  cleanCompsAux (isRooted p) (splitChar '/' p) []

/-- Rebuild a path string from cleaned components. -/
def rebuildPath (rooted : Bool) (comps : List String) : String :=
  if rooted then "/" ++ joinComps comps
  else if comps = [] then "." else joinComps comps

/-- Go `filepath.Clean`. -/
def goClean (p : String) : String :=
  rebuildPath (isRooted p) (cleanedComps p)

/-- Go `filepath.Join(a, b)`: join with a slash, then clean. -/
def goJoin (a b : String) : String :=
  if a = "" ∧ b = "" then "" else goClean (a ++ "/" ++ b)

/-- Go `filepath.Dir` (for the slash-normal paths the program uses):
all but the last cleaned component. -/
def goDir (p : String) : String :=
  rebuildPath (isRooted p) (cleanedComps p).dropLast

/-- Go `filepath.Base` (for the slash-normal paths the program uses):
the last cleaned component. -/
def goBase (p : String) : String :=
  if p = "" then "."
  else (cleanedComps p).getLastD (if isRooted p then "/" else ".")

/-- The chain of ancestor paths created by `os.MkdirAll`, shortest first,
ending with the full path. -/
def prefixPaths (rooted : Bool) (comps : List String) : List String :=
  (List.range comps.length).map (fun i => rebuildPath rooted (comps.take (i + 1)))

/-- A filesystem node: a directory, or a regular file with its permission
mode and content bytes. -/
inductive Node where
  | dir : Node
  | file (mode : Nat) (content : List Nat) : Node
deriving DecidableEq

/-- In-memory filesystem: an association list from cleaned absolute path to
node; earlier entries shadow later ones, and all observations go through
`fsLookup`. -/
def GoFs := List (String × Node)

/-- Look a path up in the filesystem. -/
def fsLookup (fs : GoFs) (p : String) : Option Node :=
  match fs with
  | [] => none
  | (q, n) :: rest => if p = q then some n else fsLookup rest p

/-- Create or replace the node at a path. -/
def fsInsert (fs : GoFs) (p : String) (n : Node) : GoFs :=
  (p, n) :: fs

/-- Whether a path names a directory; the root `/` always exists. -/
def isDirIn (fs : GoFs) (p : String) : Bool :=
  p = "/" ||
    match fsLookup fs p with
    | some .dir => true
    | _ => false

/-- Create each directory of a `MkdirAll` ancestor chain in turn; a path
already present as a directory is kept, one present as a regular file is an
error (`ENOTDIR`). -/
def mkdirList (fs : GoFs) : List String → Except Unit GoFs
  | [] => .ok fs
  | q :: qs =>
    match fsLookup fs q with
    | some .dir => mkdirList fs qs
    | some (.file _ _) => .error ()
    | none => mkdirList (fsInsert fs q .dir) qs

/-- Go `os.MkdirAll(p, perm)`: create `p` and any missing parents. -/
def goMkdirAll (fs : GoFs) (p : String) : Except Unit GoFs :=
  mkdirList fs (prefixPaths (isRooted p) (cleanedComps p))

/-- Go `os.Create(p)` (`O_RDWR|O_CREATE|O_TRUNC`, perm `0666`): an existing
regular file is truncated and keeps its mode; a missing file is created with
mode `0666` provided the parent directory exists; a directory is an error. -/
def goCreate (fs : GoFs) (p : String) : Except Unit GoFs :=
  match fsLookup fs p with
  | some (.file m _) => .ok (fsInsert fs p (.file m []))
  | some .dir => .error ()
  | none =>
    if isDirIn fs (goDir p) then .ok (fsInsert fs p (.file 438 []))
    else .error ()

/-- `io.Copy` onto a regular file opened at offset 0: the copied bytes
overwrite the front of the existing content; any longer tail survives. -/
def writeAll (fs : GoFs) (p : String) (content : List Nat) : Except Unit GoFs :=
  match fsLookup fs p with
  | some (.file m c) => .ok (fsInsert fs p (.file m (content ++ c.drop content.length)))
  | _ => .error ()

/-- Go `os.Chmod(p, mode)`. Directory modes are not tracked by the model. -/
def goChmod (fs : GoFs) (p : String) (mode : Nat) : Except Unit GoFs :=
  match fsLookup fs p with
  | some (.file _ c) => .ok (fsInsert fs p (.file mode c))
  | some .dir => .ok fs
  | none => .error ()

/-- A minimal JSON value, enough for the token-service response body. -/
inductive Json where
  | null : Json
  | str (s : String) : Json
  | num (n : Int) : Json
  | obj (fields : List (String × Json)) : Json

/-- `registryTokenSvcResponse` from `src/app/main.go` (field `Token`,
JSON tag `token,omitempty`). -/
structure registryTokenSvcResponse where
  Token : String
deriving DecidableEq

/-- The value of a JSON object field; with duplicate keys `encoding/json`
keeps the last occurrence. -/
def lookupField (fields : List (String × Json)) (key : String) : Option Json :=
  fields.foldl (fun acc kv => if kv.1 = key then some kv.2 else acc) none

/-- `json.Decoder.Decode` into `registryTokenSvcResponse`: an object with a
string `token` field yields it; an object without the field (or `null`)
leaves the Go zero value `""`; any other shape is a decode error. -/
def decodeTokenSvcResponse : Json → Option registryTokenSvcResponse
  | .obj fields =>
    match lookupField fields "token" with
    | some (.str s) => some ⟨s⟩
    | some _ => none
    | none => some ⟨""⟩
  | .null => some ⟨""⟩
  | _ => none

/-- `layer` from `src/app/main.go`. -/
structure layer where
  MediaType : String
  Size : Int
  Digest : String
deriving DecidableEq

/-- `manifestResponse` from `src/app/main.go`. -/
structure manifestResponse where
  Layers : List layer
deriving DecidableEq

/-- A tar archive entry as seen by the extraction loop: the entry types the
`switch` handles (`tar.TypeDir`, `tar.TypeReg`) plus everything else, which
the loop silently skips. -/
inductive TarEntry where
  | dir (name : String) : TarEntry
  | reg (name : String) (mode : Nat) (content : List Nat) : TarEntry
  | other (name : String) : TarEntry
deriving DecidableEq

/-- How `cmd.Run()` terminated: a normal child exit with a code, or a
launch/isolation failure whose error is not an `exec.ExitError`. -/
inductive ChildResult where
  | exited (code : Nat) : ChildResult
  | startError : ChildResult
deriving DecidableEq

/-- Observable actions of one run, in program order. -/
inductive Event where
  | tokenRequest (url : String) : Event
  | manifestRequest (url : String) (auth : String) : Event
  | blobRequest (digest : String) (url : String) (auth : String) : Event
  | extracted (digest : String) : Event
  | commandRun : Event
deriving DecidableEq

/-- How the tool's own process ends: a Go panic (abnormal termination with
a diagnostic; deferred calls run), an explicit `os.Exit` (deferred calls
skipped), or a normal return from `main` (process exit code 0; deferred
calls run). -/
inductive Outcome where
  | panicked : Outcome
  | exited (code : Nat) : Outcome
  | returned : Outcome
deriving DecidableEq

/-- The run's external collaborators: registry responses per endpoint, the
host-side binary read in `copy`, and the child-process result. -/
structure World where
  tokenStatus : Nat
  tokenBody : Json
  manifestStatus : Nat
  manifestBody : Option manifestResponse
  blobStatus : String → Nat
  blobArchive : String → Option (List TarEntry)
  hostReadOk : Bool
  hostMode : Nat
  hostContent : List Nat
  child : ChildResult

/-- What a whole run produces: its event trace and how the process ends. -/
structure RunResult where
  events : List Event
  outcome : Outcome


/-- The repository name used in every URL: `imageSplit[0]`. -/
def imageName (image : String) : String :=
  (splitChar ':' image).headD ""

/-- Tag resolution of `fetchManifest` in `src/app/main.go`: the literal
`imageSplit[1]`. `none` models the Go runtime panic (index out of range)
when the reference has no colon. -/
def fetchManifestTag (image : String) : Option String :=
  (splitChar ':' image).get? 1

/-- Tag resolution of `fetchManifest` in `src/unnamed/part_001` (and the
second variant in `src/unnamed/part_000`): `latest` unless the split has
exactly two components. -/
def fetchManifestTagPart001 (image : String) : String :=
  let imageSplit := splitChar ':' image
  if imageSplit.length = 2 then imageSplit.getD 1 "latest" else "latest"

/-- The token-issuance URL built by `registryLogin`. -/
def authURL (name : String) : String :=
  "https://auth.docker.io/token?service=registry.docker.io&scope=repository:library/" ++ name ++ ":pull"

/-- The manifest URL built by `fetchManifest`. -/
def manifestURL (name tag : String) : String :=
  "https://registry.hub.docker.com/v2/library/" ++ name ++ "/manifests/" ++ tag

/-- The blob URL built by `extractLayer`. -/
def blobURL (name digest : String) : String :=
  "https://registry.hub.docker.com/v2/library/" ++ name ++ "/blobs/" ++ digest

/-- `registryLogin` from `src/app/main.go`: GET the token endpoint, fail on
a status other than 200 or on a JSON decode error, otherwise return the
decoded `Token` field. -/
def registryLogin (image : String) (w : World) : List Event × Except Unit String :=
  let ev := Event.tokenRequest (authURL (imageName image))
  if w.tokenStatus ≠ 200 then ([ev], .error ())
  else
    match decodeTokenSvcResponse w.tokenBody with
    | none => ([ev], .error ())
    | some response => ([ev], .ok response.Token)

/-- `fetchManifest` from `src/app/main.go`: build the manifest URL from
`imageSplit[0]` and `imageSplit[1]` (a reference without a colon panics
before any request is made), GET it with the bearer header, fail on a
status other than 200 or on a decode error. -/
def fetchManifest (token image : String) (w : World) : List Event × Except Unit manifestResponse :=
  match fetchManifestTag image with
  | none => ([], .error ())
  | some tag =>
    let ev := Event.manifestRequest (manifestURL (imageName image) tag) ("Bearer " ++ token)
    if w.manifestStatus ≠ 200 then ([ev], .error ())
    else
      match w.manifestBody with
      | none => ([ev], .error ())
      | some response => ([ev], .ok response)

/-- One iteration of the tar loop in `extractLayer` (`src/app/main.go`):
  * `tar.TypeDir`: `os.Stat(target)`, and only when that fails,
    `os.MkdirAll(target, 0755)`;
  * `tar.TypeReg`: `os.OpenFile(target, O_CREATE|O_RDWR, header.Mode)`
    followed by `io.Copy(f, tr)` — no `O_TRUNC`, so an existing file keeps
    its mode and any content bytes past the new length;
  * any other type flag: no `switch` case, entry skipped. -/
def extractEntry (fs : GoFs) (rootDir : String) : TarEntry → Except Unit GoFs
  | .dir name =>
    let target := goJoin rootDir name
    match fsLookup fs target with
    | some _ => .ok fs
    | none => goMkdirAll fs target
  | .reg name mode content =>
    let target := goJoin rootDir name
    match fsLookup fs target with
    | some (.file m c) => .ok (fsInsert fs target (.file m (content ++ c.drop content.length)))
    | some .dir => .error ()
    | none =>
      if isDirIn fs (goDir target) then .ok (fsInsert fs target (.file mode content))
      else .error ()
  | .other _ => .ok fs

/-- The whole tar loop of `extractLayer` over the archive's entries. -/
def extractEntries (fs : GoFs) (rootDir : String) : List TarEntry → Except Unit GoFs
  | [] => .ok fs
  | e :: es =>
    match extractEntry fs rootDir e with
    | .error er => .error er
    | .ok fs1 => extractEntries fs1 rootDir es

/-- One iteration of the tar loop in the second variant of
`src/unnamed/part_000`: directories use `os.MkdirAll(path, info.Mode())`
unconditionally, regular files use `O_CREATE|O_TRUNC|O_WRONLY` — content is
replaced, but the permission argument still applies only at creation. -/
def extractEntryPart000 (fs : GoFs) (rootDir : String) : TarEntry → Except Unit GoFs
  | .dir name =>
    goMkdirAll fs (goJoin rootDir name)
  | .reg name mode content =>
    let target := goJoin rootDir name
    match fsLookup fs target with
    | some (.file m _) => .ok (fsInsert fs target (.file m content))
    | some .dir => .error ()
    | none =>
      if isDirIn fs (goDir target) then .ok (fsInsert fs target (.file mode content))
      else .error ()
  | .other _ => .ok fs

/-- The tar loop of `src/unnamed/part_000` over the archive's entries. -/
def extractEntriesPart000 (fs : GoFs) (rootDir : String) : List TarEntry → Except Unit GoFs
  | [] => .ok fs
  | e :: es =>
    match extractEntryPart000 fs rootDir e with
    | .error er => .error er
    | .ok fs1 => extractEntriesPart000 fs1 rootDir es

/-- `extractLayer` from `src/app/main.go`: GET the blob with the bearer
header, fail on a status other than 200, on a gzip/tar decode failure, or
on any filesystem error in the tar loop. -/
def extractLayer (token image digest rootDir : String) (w : World) (fs : GoFs) :
    List Event × Except Unit GoFs :=
  let ev := Event.blobRequest digest (blobURL (imageName image) digest) ("Bearer " ++ token)
  if w.blobStatus digest ≠ 200 then ([ev], .error ())
  else
    match w.blobArchive digest with
    | none => ([ev], .error ())
    | some entries =>
      match extractEntries fs rootDir entries with
      | .error er => ([ev], .error er)
      | .ok fs1 => ([ev, .extracted digest], .ok fs1)

/-- The `for _, layer := range manifest.Layers` loop of `main`: extract the
layers in manifest order, panicking (stopping) at the first failure. -/
def extractLayers (token image rootDir : String) (w : World) (fs : GoFs) :
    List layer → List Event × Except Unit GoFs
  | [] => ([], .ok fs)
  | l :: ls =>
    match extractLayer token image l.Digest rootDir w fs with
    | (evs, .error er) => (evs, .error er)
    | (evs, .ok fs1) =>
      match extractLayers token image rootDir w fs1 ls with
      | (evs2, r) => (evs ++ evs2, r)

/-- The materialization of a manifest's layers onto a root, at the tar
level (network stripped): the semantic core of the extraction loop of
`src/app/main.go`. -/
def materializeLayers (rootDir : String) (fs : GoFs) : List (List TarEntry) → Except Unit GoFs
  | [] => .ok fs
  | l :: ls =>
    match extractEntries fs rootDir l with
    | .error er => .error er
    | .ok fs1 => materializeLayers rootDir fs1 ls

/-- Layer materialization with the `src/unnamed/part_000` tar loop. -/
def materializeLayersPart000 (rootDir : String) (fs : GoFs) : List (List TarEntry) → Except Unit GoFs
  | [] => .ok fs
  | l :: ls =>
    match extractEntriesPart000 fs rootDir l with
    | .error er => .error er
    | .ok fs1 => materializeLayersPart000 rootDir fs1 ls

/-- `copy(src, dst)` from `src/app/main.go`: `os.Open`/`os.Stat` on the
host side (modelled by `hostReadOk`, `hostMode`, `hostContent`), then
`os.Create(dst)`, `io.Copy`, and `os.Chmod(dst, info.Mode())`. -/
def copyFile (hostReadOk : Bool) (hostMode : Nat) (hostContent : List Nat)
    (fs : GoFs) (dst : String) : Except Unit GoFs :=
  if hostReadOk then
    match goCreate fs dst with
    | .error er => .error er
    | .ok fs1 =>
      match writeAll fs1 dst hostContent with
      | .error er => .error er
      | .ok fs2 => goChmod fs2 dst hostMode
  else .error ()

/-- The root-preparation block of `main` (`src/app/main.go:205-216`):
compute `chrootCommandDir`/`chrootCommand`, `os.MkdirAll` the directory,
then unconditionally `copy` the host binary over whatever is there. -/
def rootPrepare (hostReadOk : Bool) (hostMode : Nat) (hostContent : List Nat)
    (fs : GoFs) (chrootRoot command : String) : Except Unit GoFs :=
  let chrootCommandDir := goJoin chrootRoot (goDir command)
  let chrootCommand := goJoin chrootCommandDir (goBase command)
  match goMkdirAll fs chrootCommandDir with
  | .error er => .error er
  | .ok fs1 => copyFile hostReadOk hostMode hostContent fs1 chrootCommand

/-- The tail of `main` after `cmd.Run()`: a nil error (child exited 0)
falls through and `main` returns; an `exec.ExitError` reaches
`os.Exit(exitErr.ExitCode())`; any other error is silently ignored and
`main` returns. -/
def runCmdOutcome : ChildResult → Outcome
  | .exited 0 => .returned
  | .exited (n + 1) => .exited (n + 1)
  | .startError => .returned

/-- The chroot target computed by `main`:
`chrootRoot := filepath.Join("/tmp", dir)` where `dir` is the full path
already returned by `ioutil.TempDir("/tmp", "docker")`. -/
def chrootRootOf (dir : String) : String :=
  goJoin "/tmp" dir

/-- The filesystem at the start of a run: `/tmp` exists, and
`ioutil.TempDir("/tmp", "docker")` has just created `dir`. -/
def fs0Of (dir : String) : GoFs :=
  [("/tmp", Node.dir), (dir, Node.dir)]

/-- Whether an event is a blob request. -/
def isBlobRequestEv : Event → Bool
  | .blobRequest _ _ _ => true
  | _ => false

/-- Whether an event records a completed layer extraction. -/
def isExtractedEv : Event → Bool
  | .extracted _ => true
  | _ => false

/-- Everything `main` does between the `ioutil.TempDir` call and
`cmd.Run()`: login, manifest fetch, layer extraction onto the chroot
target, and root preparation. `dir` is the temporary directory returned by
`ioutil.TempDir`; the initial filesystem holds `/tmp` and that directory. -/
def runSetup (dir image command : String) (w : World) : List Event × Except Unit GoFs :=
  let chrootRoot := chrootRootOf dir
  let fs0 := fs0Of dir
  match registryLogin image w with
  | (evs, .error er) => (evs, .error er)
  | (evs, .ok token) =>
    match fetchManifest token image w with
    | (evs2, .error er) => (evs ++ evs2, .error er)
    | (evs2, .ok manifest) =>
      match extractLayers token image chrootRoot w fs0 manifest.Layers with
      | (evs3, .error er) => (evs ++ evs2 ++ evs3, .error er)
      | (evs3, .ok fs1) =>
        match rootPrepare w.hostReadOk w.hostMode w.hostContent fs1 chrootRoot command with
        | .error er => (evs ++ evs2 ++ evs3, .error er)
        | .ok fs2 => (evs ++ evs2 ++ evs3 ++ [Event.commandRun], .ok fs2)

/-- `main` from `src/app/main.go`: any setup failure reaches `panic(err)`
(or the index-out-of-range runtime panic); otherwise `cmd.Run()` executes
and its error, if any, is translated by the final `if` block. -/
def run (dir image command : String) (w : World) : RunResult :=
  match runSetup dir image command w with
  | (evs, .error _) => ⟨evs, .panicked⟩
  | (evs, .ok _) => ⟨evs, runCmdOutcome w.child⟩

/-- Whether Go runs the deferred `os.RemoveAll(dir)` for a given process
end: deferred calls run on a normal return and during a panic, but
`os.Exit` terminates the process without running them. -/
def deferRan : Outcome → Bool
  | .panicked => true
  | .exited _ => false
  | .returned => true

/-- How many times the registered removal of the temporary directory runs. -/
def removalCount (o : Outcome) : Nat :=
  if deferRan o then 1 else 0

/-- The tool's own process exit code: `some n` for a normal process exit
with code `n`; `none` for the abnormal panic termination (the Go runtime
prints the panic value and exits with a nonzero status). -/
def exitCodeOf : Outcome → Option Nat
  | .panicked => none
  | .exited n => some n
  | .returned => some 0

/-- Whether an `Except` is a success. -/
def exceptIsOk {ε α : Type} : Except ε α → Bool
  | .ok _ => true
  | .error _ => false

/-- The success value of an `Except`, or a default. -/
def exceptGetD {ε α : Type} (r : Except ε α) (d : α) : α :=
  match r with
  | .ok a => a
  | .error _ => d

/-- Look a path up in the filesystem produced by a successful extraction. -/
def lookupResult (r : Except Unit GoFs) (p : String) : Option Node :=
  match r with
  | .ok fs => fsLookup fs p
  | .error _ => none

/-- `nullReader.Read` from `src/app/main.go:21`: `return len(p), nil`.
The result is (buffer after the call, reported byte count, error), where
`none` is Go's nil error and `some ()` would be `io.EOF`. The buffer is
never written. -/
def nullReaderRead (p : List Nat) : List Nat × Nat × Option Unit :=
  (p, p.length, none)

/-- A small layer archive: a `bin` directory and a `bin/sh` regular file. -/
def archiveA : List TarEntry :=
  [TarEntry.dir "bin", TarEntry.reg "bin/sh" 493 [1, 2]]

/-- A fully successful world: token issued, one-layer manifest, blob served,
host binary readable, child exits with code 7. -/
def wBase : World where
  tokenStatus := 200
  tokenBody := Json.obj [("token", Json.str "tok")]
  manifestStatus := 200
  manifestBody := some ⟨[⟨"application/vnd.docker.image.rootfs.diff.tar.gzip", 100, "sha256:aaa"⟩]⟩
  blobStatus := fun _ => 200
  blobArchive := fun d => if d = "sha256:aaa" then some archiveA else none
  hostReadOk := true
  hostMode := 448
  hostContent := [9]
  child := ChildResult.exited 7

/-- As `wBase`, but `cmd.Run()` fails with a non-`ExitError` error. -/
def wStartFail : World := { wBase with child := ChildResult.startError }

/-- As `wBase`, but the token endpoint answers 500. -/
def wTok500 : World := { wBase with tokenStatus := 500 }

/-- As `wBase`, but the token body is the empty JSON object. -/
def wEmptyTok : World := { wBase with tokenBody := Json.obj [] }

/-- As `wBase`, but the child exits 0. -/
def wExit0 : World := { wBase with child := ChildResult.exited 0 }

theorem fsLookup_insert_self (fs : GoFs) (p : String) (n : Node) :
    fsLookup (fsInsert fs p n) p = some n := by
  simp [fsInsert, fsLookup]

theorem goCreate_ok_shape (fs fs1 : GoFs) (p : String)
    (h : goCreate fs p = .ok fs1) :
    ∃ m, fs1 = fsInsert fs p (Node.file m []) := by
  unfold goCreate at h
  rcases hx : fsLookup fs p with _ | n
  · rw [hx] at h
    simp only at h
    split at h
    · exact ⟨438, by injection h with h2; exact h2.symm⟩
    · cases h
  · rw [hx] at h
    cases n with
    | dir => simp at h
    | file m c => exact ⟨m, by injection h with h2; exact h2.symm⟩

theorem registryLogin_events (image : String) (w : World) :
    (registryLogin image w).1 = [Event.tokenRequest (authURL (imageName image))] := by
  unfold registryLogin
  split
  · rfl
  · split <;> rfl

theorem registryLogin_err (image : String) (w : World) (h : w.tokenStatus ≠ 200) :
    (registryLogin image w).2 = .error () := by
  simp [registryLogin, h]

theorem fetchManifest_err (token image : String) (w : World)
    (h : w.manifestStatus ≠ 200) :
    (fetchManifest token image w).2 = .error () := by
  rcases htag : fetchManifestTag image with _ | tag <;>
    simp [fetchManifest, htag, h]

theorem fetchManifest_ok_body (token image : String) (w : World) (m : manifestResponse)
    (h : (fetchManifest token image w).2 = .ok m) :
    w.manifestBody = some m := by
  unfold fetchManifest at h
  rcases htag : fetchManifestTag image with _ | tag <;> rw [htag] at h
  · cases h
  · simp only at h
    split at h
    · cases h
    · rcases hb : w.manifestBody with _ | r <;> rw [hb] at h
      · cases h
      · injection h with h2
        rw [h2]

theorem fetchManifest_event_mem (token image : String) (w : World) (e : Event)
    (h : e ∈ (fetchManifest token image w).1) :
    ∃ u, e = Event.manifestRequest u ("Bearer " ++ token) := by
  unfold fetchManifest at h
  rcases htag : fetchManifestTag image with _ | tag <;> rw [htag] at h
  · simp at h
  · simp only at h
    split at h
    · simp at h
      exact ⟨_, h⟩
    · rcases hb : w.manifestBody with _ | r <;> rw [hb] at h <;>
        · simp at h
          exact ⟨_, h⟩

theorem extractLayer_mem (token image digest rootDir : String) (w : World) (fs : GoFs)
    (e : Event) (h : e ∈ (extractLayer token image digest rootDir w fs).1) :
    e = Event.blobRequest digest (blobURL (imageName image) digest) ("Bearer " ++ token) ∨
      (e = Event.extracted digest ∧ w.blobStatus digest = 200) := by
  unfold extractLayer at h
  split at h
  · simp at h
    exact Or.inl h
  · rename_i hstat
    rcases ha : w.blobArchive digest with _ | entries <;> rw [ha] at h
    · simp at h
      exact Or.inl h
    · simp only at h
      split at h
      · simp at h
        exact Or.inl h
      · simp at h
        rcases h with h | h
        · exact Or.inl h
        · exact Or.inr ⟨h, by omega⟩

theorem extractLayer_ok_status (token image digest rootDir : String) (w : World)
    (fs : GoFs) (h : exceptIsOk (extractLayer token image digest rootDir w fs).2 = true) :
    w.blobStatus digest = 200 := by
  unfold extractLayer at h
  split at h
  · simp [exceptIsOk] at h
  · omega

theorem extractLayers_event_shapes (token image rootDir : String) (w : World)
    (ls : List layer) :
    ∀ (fs : GoFs) (e : Event), e ∈ (extractLayers token image rootDir w fs ls).1 →
      (∃ d u, e = Event.blobRequest d u ("Bearer " ++ token)) ∨ ∃ d, e = Event.extracted d := by
  induction ls with
  | nil =>
    intro fs e h
    simp [extractLayers] at h
  | cons l ls ih =>
    intro fs e h
    unfold extractLayers at h
    rcases hx : extractLayer token image l.Digest rootDir w fs with ⟨evs, r⟩
    rw [hx] at h
    cases r with
    | error er =>
      dsimp only at h
      rcases extractLayer_mem token image l.Digest rootDir w fs e (by rw [hx]; exact h) with
        h2 | ⟨h2, _⟩
      · exact Or.inl ⟨_, _, h2⟩
      · exact Or.inr ⟨_, h2⟩
    | ok fs1 =>
      dsimp only at h
      rcases hy : extractLayers token image rootDir w fs1 ls with ⟨evs2, r2⟩
      rw [hy] at h
      dsimp only at h
      rcases List.mem_append.mp h with h2 | h2
      · rcases extractLayer_mem token image l.Digest rootDir w fs e (by rw [hx]; exact h2) with
          h3 | ⟨h3, _⟩
        · exact Or.inl ⟨_, _, h3⟩
        · exact Or.inr ⟨_, h3⟩
      · exact ih fs1 e (by rw [hy]; exact h2)

theorem extractLayers_extracted_status (token image rootDir : String) (w : World)
    (ls : List layer) :
    ∀ (fs : GoFs) (d : String), Event.extracted d ∈ (extractLayers token image rootDir w fs ls).1 →
      w.blobStatus d = 200 := by
  induction ls with
  | nil =>
    intro fs d h
    simp [extractLayers] at h
  | cons l ls ih =>
    intro fs d h
    unfold extractLayers at h
    rcases hx : extractLayer token image l.Digest rootDir w fs with ⟨evs, r⟩
    rw [hx] at h
    cases r with
    | error er =>
      dsimp only at h
      rcases extractLayer_mem token image l.Digest rootDir w fs _ (by rw [hx]; exact h) with
        h2 | ⟨h2, hs⟩
      · cases h2
      · injection h2 with h3
        rw [h3]
        exact hs
    | ok fs1 =>
      dsimp only at h
      rcases hy : extractLayers token image rootDir w fs1 ls with ⟨evs2, r2⟩
      rw [hy] at h
      dsimp only at h
      rcases List.mem_append.mp h with h2 | h2
      · rcases extractLayer_mem token image l.Digest rootDir w fs _ (by rw [hx]; exact h2) with
          h3 | ⟨h3, hs⟩
        · cases h3
        · injection h3 with h4
          rw [h4]
          exact hs
      · exact ih fs1 d (by rw [hy]; exact h2)

theorem extractLayers_ok_all200 (token image rootDir : String) (w : World)
    (ls : List layer) :
    ∀ (fs : GoFs), exceptIsOk (extractLayers token image rootDir w fs ls).2 = true →
      ∀ l ∈ ls, w.blobStatus l.Digest = 200 := by
  induction ls with
  | nil =>
    intro fs _ l hl
    simp at hl
  | cons l0 ls ih =>
    intro fs h l hl
    unfold extractLayers at h
    rcases hx : extractLayer token image l0.Digest rootDir w fs with ⟨evs, r⟩
    rw [hx] at h
    cases r with
    | error er => simp [exceptIsOk] at h
    | ok fs1 =>
      dsimp only at h
      rcases hy : extractLayers token image rootDir w fs1 ls with ⟨evs2, r2⟩
      rw [hy] at h
      dsimp only at h
      rcases List.mem_cons.mp hl with h2 | h2
      · rw [h2]
        exact extractLayer_ok_status token image l0.Digest rootDir w fs (by rw [hx]; rfl)
      · exact ih fs1 (by rw [hy]; exact h) l h2

theorem extractLayers_blobReq_prefix (token image rootDir : String) (w : World)
    (ls : List layer) :
    ∀ (fs : GoFs) (d u a : String),
      Event.blobRequest d u a ∈ (extractLayers token image rootDir w fs ls).1 →
      ∃ pre l post, ls = pre ++ l :: post ∧ l.Digest = d ∧
        ∀ l2 ∈ pre, w.blobStatus l2.Digest = 200 := by
  induction ls with
  | nil =>
    intro fs d u a h
    simp [extractLayers] at h
  | cons l0 ls ih =>
    intro fs d u a h
    unfold extractLayers at h
    rcases hx : extractLayer token image l0.Digest rootDir w fs with ⟨evs, r⟩
    rw [hx] at h
    cases r with
    | error er =>
      dsimp only at h
      rcases extractLayer_mem token image l0.Digest rootDir w fs _ (by rw [hx]; exact h) with
        h2 | ⟨h2, _⟩
      · injection h2 with h3 h4 h5
        exact ⟨[], l0, ls, rfl, h3.symm, by simp⟩
      · cases h2
    | ok fs1 =>
      dsimp only at h
      rcases hy : extractLayers token image rootDir w fs1 ls with ⟨evs2, r2⟩
      rw [hy] at h
      dsimp only at h
      rcases List.mem_append.mp h with h2 | h2
      · rcases extractLayer_mem token image l0.Digest rootDir w fs _ (by rw [hx]; exact h2) with
          h3 | ⟨h3, _⟩
        · injection h3 with h4 h5 h6
          exact ⟨[], l0, ls, rfl, h4.symm, by simp⟩
        · cases h3
      · rcases ih fs1 d u a (by rw [hy]; exact h2) with ⟨pre, l, post, hsplit, hd, hpre⟩
        refine ⟨l0 :: pre, l, post, by simp [hsplit], hd, ?_⟩
        intro l2 hl2
        rcases List.mem_cons.mp hl2 with h3 | h3
        · rw [h3]
          exact extractLayer_ok_status token image l0.Digest rootDir w fs (by rw [hx]; rfl)
        · exact hpre l2 h3

theorem run_cases (dir image command : String) (w : World) :
    ((run dir image command w).outcome = Outcome.panicked ∨
      ∃ tok m, (registryLogin image w).2 = .ok tok ∧
        (fetchManifest tok image w).2 = .ok m ∧
        exceptIsOk (extractLayers tok image (chrootRootOf dir) w (fs0Of dir) m.Layers).2 = true ∧
        (run dir image command w).outcome = runCmdOutcome w.child) ∧
    (∀ e ∈ (run dir image command w).events,
      e ∈ (registryLogin image w).1 ∨
      ∃ tok, (registryLogin image w).2 = .ok tok ∧
        (e ∈ (fetchManifest tok image w).1 ∨
         ∃ m, (fetchManifest tok image w).2 = .ok m ∧
           (e ∈ (extractLayers tok image (chrootRootOf dir) w (fs0Of dir) m.Layers).1 ∨
            (exceptIsOk (extractLayers tok image (chrootRootOf dir) w (fs0Of dir) m.Layers).2 = true ∧
             e = Event.commandRun)))) := by
  rcases hL : registryLogin image w with ⟨evL, rL⟩
  cases rL with
  | error er =>
    have hrun : run dir image command w = ⟨evL, Outcome.panicked⟩ := by
      simp [run, runSetup, hL]
    constructor
    · left
      rw [hrun]
    · intro e he
      rw [hrun] at he
      left
      exact he
  | ok tok =>
    rcases hF : fetchManifest tok image w with ⟨evF, rF⟩
    cases rF with
    | error er =>
      have hrun : run dir image command w = ⟨evL ++ evF, Outcome.panicked⟩ := by
        simp [run, runSetup, hL, hF]
      constructor
      · left
        rw [hrun]
      · intro e he
        rw [hrun] at he
        rcases List.mem_append.mp he with h1 | h1
        · exact Or.inl h1
        · exact Or.inr ⟨tok, rfl, Or.inl (by rw [hF]; exact h1)⟩
    | ok m =>
      rcases hX : extractLayers tok image (chrootRootOf dir) w (fs0Of dir) m.Layers
        with ⟨evX, rX⟩
      cases rX with
      | error er =>
        have hrun : run dir image command w = ⟨evL ++ evF ++ evX, Outcome.panicked⟩ := by
          simp [run, runSetup, hL, hF, hX]
        constructor
        · left
          rw [hrun]
        · intro e he
          rw [hrun] at he
          rcases List.mem_append.mp he with h1 | h1
          · rcases List.mem_append.mp h1 with h2 | h2
            · exact Or.inl h2
            · exact Or.inr ⟨tok, rfl, Or.inl (by rw [hF]; exact h2)⟩
          · exact Or.inr ⟨tok, rfl, Or.inr ⟨m, by rw [hF], Or.inl (by rw [hX]; exact h1)⟩⟩
      | ok fs1 =>
        rcases hP : rootPrepare w.hostReadOk w.hostMode w.hostContent fs1
            (chrootRootOf dir) command with _ | fs2
        · have hrun : run dir image command w = ⟨evL ++ evF ++ evX, Outcome.panicked⟩ := by
            simp [run, runSetup, hL, hF, hX, hP]
          constructor
          · left
            rw [hrun]
          · intro e he
            rw [hrun] at he
            rcases List.mem_append.mp he with h1 | h1
            · rcases List.mem_append.mp h1 with h2 | h2
              · exact Or.inl h2
              · exact Or.inr ⟨tok, rfl, Or.inl (by rw [hF]; exact h2)⟩
            · exact Or.inr ⟨tok, rfl, Or.inr ⟨m, by rw [hF], Or.inl (by rw [hX]; exact h1)⟩⟩
        · have hrun : run dir image command w =
              ⟨evL ++ evF ++ evX ++ [Event.commandRun], runCmdOutcome w.child⟩ := by
            simp [run, runSetup, hL, hF, hX, hP]
          constructor
          · right
            exact ⟨tok, m, rfl, by rw [hF], by rw [hX]; rfl, by rw [hrun]⟩
          · intro e he
            rw [hrun] at he
            rcases List.mem_append.mp he with h1 | h1
            · rcases List.mem_append.mp h1 with h2 | h2
              · rcases List.mem_append.mp h2 with h3 | h3
                · exact Or.inl h3
                · exact Or.inr ⟨tok, rfl, Or.inl (by rw [hF]; exact h3)⟩
              · exact Or.inr ⟨tok, rfl, Or.inr ⟨m, by rw [hF], Or.inl (by rw [hX]; exact h2)⟩⟩
            · exact Or.inr ⟨tok, rfl,
                Or.inr ⟨m, by rw [hF], Or.inr ⟨by rw [hX]; rfl, List.mem_singleton.mp h1⟩⟩⟩

/-- C1: the claim says a reference without a colon is resolved to tag
`latest`. In `src/app/main.go`, `fetchManifest` reads `imageSplit[1]`
unconditionally, so a bare `busybox` reference hits an index-out-of-range
runtime panic before any manifest request is made (the whole run panics and
the only request issued is the token request); only the
`src/unnamed/part_001` variant defaults to `latest`. For `name:tag`
references both variants request `tag`. -/
theorem tag_resolution_without_colon :
    fetchManifestTag "busybox" = none ∧
    fetchManifestTag "ubuntu:20.04" = some "20.04" ∧
    fetchManifestTagPart001 "busybox" = "latest" ∧
    fetchManifestTagPart001 "ubuntu:20.04" = "20.04" ∧
    (run "/tmp/docker123" "busybox" "/bin/sh" wBase).outcome = Outcome.panicked ∧
    (run "/tmp/docker123" "busybox" "/bin/sh" wBase).events =
      [Event.tokenRequest (authURL "busybox")] := by
  decide

/-- C3: in a fully successful run whose child exits with code 7, `main`
reaches `os.Exit(7)`, which skips the deferred `os.RemoveAll(dir)` — the
registered removal runs zero times, not once. Moreover, in
`src/app/main.go` the removal target `dir` (`/tmp/docker123`) is not the
directory layers are extracted into and chroot points at
(`filepath.Join("/tmp", dir)` = `/tmp/tmp/docker123`), so that directory is
never the target of the removal on any path. -/
theorem temp_root_cleanup_skipped :
    (run "/tmp/docker123" "alpine:3.19" "/bin/sh" wBase).outcome = Outcome.exited 7 ∧
    removalCount (run "/tmp/docker123" "alpine:3.19" "/bin/sh" wBase).outcome = 0 ∧
    chrootRootOf "/tmp/docker123" = "/tmp/tmp/docker123" ∧
    chrootRootOf "/tmp/docker123" ≠ "/tmp/docker123" := by
  decide

/-- C5: `nullReader.Read` returns `(len(p), nil)` without writing the
buffer: a one-byte read reports one byte of (stale) data and a nil error,
never an end-of-input condition — the child's input stream is an endless
data source, not an immediate EOF. -/
theorem nullreader_read_delivers_data :
    nullReaderRead [0] = ([0], 1, none) ∧
    (nullReaderRead [0]).2.1 ≠ 0 ∧
    (nullReaderRead [0]).2.2 = none ∧
    (nullReaderRead (List.replicate 4 0)).2.1 = 4 := by
  decide

/-- C9: a tar directory entry whose target already exists (the `os.Stat`
succeeds) skips `os.MkdirAll` entirely and returns no error, leaving the
filesystem unchanged. -/
theorem existing_dir_entry_no_error (fs : GoFs) (rootDir name : String) (node : Node)
    (h : fsLookup fs (goJoin rootDir name) = some node) :
    extractEntry fs rootDir (TarEntry.dir name) = Except.ok fs := by
  simp [extractEntry, h]

/-- C9 witness: a concrete filesystem where `/r/b` already exists. -/
theorem existing_dir_entry_no_error_witness :
    extractEntry [("/r/b", Node.dir), ("/r", Node.dir)] "/r" (TarEntry.dir "b") =
      Except.ok [("/r/b", Node.dir), ("/r", Node.dir)] :=
  existing_dir_entry_no_error [("/r/b", Node.dir), ("/r", Node.dir)] "/r" "b" Node.dir
    (by decide)

/-- C2 counterexample: two layers both carrying regular file `f`; the second
layer has shorter content `[9]` and mode `0755`. The claim predicts content
`[9]` and mode `0755` (`Node.file 493 [9]`). `src/app/main.go` (no
`O_TRUNC`) produces content `[9, 2, 3]` with the first layer's mode kept;
the `src/unnamed/part_000` variant (with `O_TRUNC`) produces content `[9]`
but also keeps the first layer's mode. -/
theorem regfile_later_layer_cex :
    lookupResult (materializeLayers "/r" [("/r", Node.dir)]
        [[TarEntry.reg "f" 420 [1, 2, 3]], [TarEntry.reg "f" 493 [9]]]) "/r/f" =
      some (Node.file 420 [9, 2, 3]) ∧
    lookupResult (materializeLayersPart000 "/r" [("/r", Node.dir)]
        [[TarEntry.reg "f" 420 [1, 2, 3]], [TarEntry.reg "f" 493 [9]]]) "/r/f" =
      some (Node.file 420 [9]) ∧
    some (Node.file 420 [9, 2, 3]) ≠ some (Node.file 493 [9]) ∧
    some (Node.file 420 [9]) ≠ some (Node.file 493 [9]) := by
  decide

/-- C2 amended: when a path is carried as a regular-file entry by two layers
applied in order, `src/app/main.go` leaves the file with the later layer's
bytes overlaid on the front of the earlier content (a longer earlier tail
survives, because the file is opened without `O_TRUNC`) and with the first
layer's mode (the `OpenFile` permission argument applies only at creation);
the `src/unnamed/part_000` variant truncates, so its content is exactly the
later layer's bytes, but the mode is likewise the first layer's. -/
theorem regfile_later_layer_semantics (rootDir name : String) (fs : GoFs)
    (m1 m2 : Nat) (c1 c2 : List Nat)
    (hnone : fsLookup fs (goJoin rootDir name) = none)
    (hpar : isDirIn fs (goDir (goJoin rootDir name)) = true) :
    lookupResult (materializeLayers rootDir fs
        [[TarEntry.reg name m1 c1], [TarEntry.reg name m2 c2]]) (goJoin rootDir name) =
      some (Node.file m1 (c2 ++ c1.drop c2.length)) ∧
    lookupResult (materializeLayersPart000 rootDir fs
        [[TarEntry.reg name m1 c1], [TarEntry.reg name m2 c2]]) (goJoin rootDir name) =
      some (Node.file m1 c2) := by
  constructor <;>
    simp [materializeLayers, materializeLayersPart000, extractEntries, extractEntriesPart000,
      extractEntry, extractEntryPart000, hnone, hpar, lookupResult, fsLookup_insert_self]

/-- C2 witness: the amended statement applied at the counterexample input. -/
theorem regfile_later_layer_semantics_witness :
    lookupResult (materializeLayers "/r" [("/r", Node.dir)]
        [[TarEntry.reg "f" 420 [1, 2, 3]], [TarEntry.reg "f" 493 [9]]]) (goJoin "/r" "f") =
      some (Node.file 420 [9, 2, 3]) ∧
    lookupResult (materializeLayersPart000 "/r" [("/r", Node.dir)]
        [[TarEntry.reg "f" 420 [1, 2, 3]], [TarEntry.reg "f" 493 [9]]]) (goJoin "/r" "f") =
      some (Node.file 420 [9]) :=
  regfile_later_layer_semantics "/r" "f" [("/r", Node.dir)] 420 493 [1, 2, 3] [9]
    (by decide) (by decide)

/-- C8 counterexample: the extracted layers already provide an executable
regular file at the command path (`/bin/sh`, mode `0755`, content `[1, 2]`);
`main` still copies the host binary over it — the layer-provided file is
not left unchanged. -/
theorem root_prepare_overwrite_cex :
    lookupResult (rootPrepare true 448 [9]
        [("/tmp/tmp/d/bin/sh", Node.file 493 [1, 2]), ("/tmp/tmp/d/bin", Node.dir),
         ("/tmp/tmp/d", Node.dir), ("/tmp", Node.dir)]
        "/tmp/tmp/d" "/bin/sh") "/tmp/tmp/d/bin/sh" =
      some (Node.file 448 [9]) ∧
    some (Node.file 448 [9]) ≠ some (Node.file 493 [1, 2]) := by
  decide

/-- C8 amended: the root-preparation step is unconditional — whenever it
succeeds, the command path inside the root holds exactly the host binary's
bytes and mode, regardless of whether the layers already provided a file
there (any layer-provided file is truncated and overwritten). -/
theorem root_prepare_unconditional_copy (hostMode : Nat) (hostContent : List Nat)
    (fs fs2 : GoFs) (chrootRoot command : String)
    (h : rootPrepare true hostMode hostContent fs chrootRoot command = .ok fs2) :
    fsLookup fs2 (goJoin (goJoin chrootRoot (goDir command)) (goBase command)) =
      some (Node.file hostMode hostContent) := by
  simp only [rootPrepare] at h
  rcases hm : goMkdirAll fs (goJoin chrootRoot (goDir command)) with _ | fs1 <;> rw [hm] at h
  · cases h
  · dsimp only at h
    simp only [copyFile, eq_self_iff_true, if_true] at h
    rcases hc : goCreate fs1 (goJoin (goJoin chrootRoot (goDir command)) (goBase command))
      with _ | fsa <;> rw [hc] at h
    · cases h
    · dsimp only at h
      obtain ⟨mm, hfsa⟩ := goCreate_ok_shape fs1 fsa
        (goJoin (goJoin chrootRoot (goDir command)) (goBase command)) hc
      have hw : writeAll fsa (goJoin (goJoin chrootRoot (goDir command)) (goBase command))
          hostContent =
          Except.ok (fsInsert fsa (goJoin (goJoin chrootRoot (goDir command)) (goBase command))
            (Node.file mm hostContent)) := by
        rw [hfsa]
        simp [writeAll, fsLookup_insert_self]
      rw [hw] at h
      dsimp only at h
      have hch : goChmod (fsInsert fsa (goJoin (goJoin chrootRoot (goDir command)) (goBase command))
            (Node.file mm hostContent))
          (goJoin (goJoin chrootRoot (goDir command)) (goBase command)) hostMode =
          Except.ok (fsInsert (fsInsert fsa
            (goJoin (goJoin chrootRoot (goDir command)) (goBase command))
            (Node.file mm hostContent))
            (goJoin (goJoin chrootRoot (goDir command)) (goBase command))
            (Node.file hostMode hostContent)) := by
        simp [goChmod, fsLookup_insert_self]
      rw [hch] at h
      injection h with h2
      rw [← h2]
      exact fsLookup_insert_self _ _ _

/-- C8 witness: the amended statement applied at a concrete input. -/
theorem root_prepare_unconditional_copy_witness :
    fsLookup (exceptGetD (rootPrepare true 448 [9] [("/r", Node.dir)] "/r" "/bin/sh") [])
        (goJoin (goJoin "/r" (goDir "/bin/sh")) (goBase "/bin/sh")) =
      some (Node.file 448 [9]) :=
  root_prepare_unconditional_copy 448 [9] [("/r", Node.dir)]
    (exceptGetD (rootPrepare true 448 [9] [("/r", Node.dir)] "/r" "/bin/sh") [])
    "/r" "/bin/sh" rfl

/-- C4: whenever setup succeeds (so `cmd.Run()` executes) and the child
terminates normally with exit code `N` (0 ≤ N ≤ 255), the tool's own process
exits with code `N`: a zero exit makes `cmd.Run` return nil and `main`
return normally (process exit 0); a nonzero exit is an `exec.ExitError` and
reaches `os.Exit(exitErr.ExitCode())`. -/
theorem child_exit_code_propagated (dir image command : String) (w : World) (n : Nat)
    (hn : n ≤ 255)
    (hsetup : exceptIsOk (runSetup dir image command w).2 = true)
    (hchild : w.child = ChildResult.exited n) :
    exitCodeOf (run dir image command w).outcome = some n := by
  rcases hS : runSetup dir image command w with ⟨evs, r⟩
  rw [hS] at hsetup
  cases r with
  | error er => simp [exceptIsOk] at hsetup
  | ok fs =>
    have hrun : run dir image command w = ⟨evs, runCmdOutcome w.child⟩ := by
      simp [run, hS]
    rw [hrun, hchild]
    cases n with
    | zero => rfl
    | succ k => rfl

/-- C4 witness: the successful `wBase` run with a child exiting 7 makes the
tool exit 7. -/
theorem child_exit_code_propagated_witness :
    exitCodeOf (run "/tmp/docker123" "alpine:3.19" "/bin/sh" wBase).outcome = some 7 :=
  child_exit_code_propagated "/tmp/docker123" "alpine:3.19" "/bin/sh" wBase 7
    (by decide) (by decide) rfl

/-- C6 counterexample: a run whose setup succeeds but whose `cmd.Run()`
fails with an error that is not an `exec.ExitError` (process-creation or
isolation failure). The final `if` block matches only `ExitError`, so the
error is silently dropped: `main` returns normally and the tool's process
exits 0 — as if successful, with no diagnostic — instead of terminating
abnormally. -/
theorem launch_failure_exit_zero_cex :
    (run "/tmp/docker123" "alpine:3.19" "/bin/sh" wStartFail).outcome = Outcome.returned ∧
    (run "/tmp/docker123" "alpine:3.19" "/bin/sh" wStartFail).outcome ≠ Outcome.panicked ∧
    exitCodeOf (run "/tmp/docker123" "alpine:3.19" "/bin/sh" wStartFail).outcome = some 0 := by
  decide

/-- C6 amended: when setup succeeds and the launch fails with a
non-`ExitError` error, `src/app/main.go` ignores the error entirely — the
tool returns from `main` and exits with code 0 and no diagnostic (the
`src/unnamed/part_001` variant prints the error message first but likewise
exits 0); the run does not terminate abnormally. -/
theorem launch_failure_ignored (dir image command : String) (w : World)
    (hsetup : exceptIsOk (runSetup dir image command w).2 = true)
    (hchild : w.child = ChildResult.startError) :
    (run dir image command w).outcome = Outcome.returned ∧
    exitCodeOf (run dir image command w).outcome = some 0 := by
  rcases hS : runSetup dir image command w with ⟨evs, r⟩
  rw [hS] at hsetup
  cases r with
  | error er => simp [exceptIsOk] at hsetup
  | ok fs =>
    have hrun : run dir image command w = ⟨evs, runCmdOutcome w.child⟩ := by
      simp [run, hS]
    rw [hrun, hchild]
    exact ⟨rfl, rfl⟩

/-- C6 witness: the amended statement applied at a concrete failing launch. -/
theorem launch_failure_ignored_witness :
    (run "/tmp/docker123" "alpine:3.19" "/bin/sh" wStartFail).outcome = Outcome.returned ∧
    exitCodeOf (run "/tmp/docker123" "alpine:3.19" "/bin/sh" wStartFail).outcome = some 0 :=
  launch_failure_ignored "/tmp/docker123" "alpine:3.19" "/bin/sh" wStartFail
    (by decide) rfl

/-- C10: if the token endpoint answers 200 with a JSON object that decodes
but has no `token` field (for example `{}`), `registryLogin` returns the
empty string with a nil error (the Go zero value of the struct field), and
every subsequent manifest and blob request of the run carries the header
`Authorization: Bearer ` built from that empty token. -/
theorem empty_token_propagates (dir image command : String) (w : World)
    (fields : List (String × Json))
    (h200 : w.tokenStatus = 200)
    (hbody : w.tokenBody = Json.obj fields)
    (hmiss : lookupField fields "token" = none) :
    (registryLogin image w).2 = Except.ok "" ∧
    (∀ u a, Event.manifestRequest u a ∈ (run dir image command w).events → a = "Bearer ") ∧
    (∀ d u a, Event.blobRequest d u a ∈ (run dir image command w).events → a = "Bearer ") := by
  have hok : (registryLogin image w).2 = Except.ok "" := by
    simp [registryLogin, h200, hbody, decodeTokenSvcResponse, hmiss]
  obtain ⟨-, hmem⟩ := run_cases dir image command w
  refine ⟨hok, ?_, ?_⟩
  · intro u a hin
    rcases hmem _ hin with hl | ⟨tok, htok, hrest⟩
    · rw [registryLogin_events] at hl
      simp at hl
    · have htok0 : tok = "" := by
        rw [hok] at htok
        injection htok with h2
        exact h2.symm
      subst htok0
      rcases hrest with hf | ⟨m, hFok, hrest2⟩
      · obtain ⟨u2, heq⟩ := fetchManifest_event_mem "" image w _ hf
        injection heq
      · rcases hrest2 with hx | ⟨_, heq⟩
        · rcases extractLayers_event_shapes "" image (chrootRootOf dir) w m.Layers
            (fs0Of dir) _ hx with ⟨d2, u2, heq⟩ | ⟨d2, heq⟩
          · cases heq
          · cases heq
        · cases heq
  · intro d u a hin
    rcases hmem _ hin with hl | ⟨tok, htok, hrest⟩
    · rw [registryLogin_events] at hl
      simp at hl
    · have htok0 : tok = "" := by
        rw [hok] at htok
        injection htok with h2
        exact h2.symm
      subst htok0
      rcases hrest with hf | ⟨m, hFok, hrest2⟩
      · obtain ⟨u2, heq⟩ := fetchManifest_event_mem "" image w _ hf
        cases heq
      · rcases hrest2 with hx | ⟨_, heq⟩
        · rcases extractLayers_event_shapes "" image (chrootRootOf dir) w m.Layers
            (fs0Of dir) _ hx with ⟨d2, u2, heq⟩ | ⟨d2, heq⟩
          · injection heq
          · cases heq
        · cases heq

/-- C10 witness: the statement applied at a concrete world whose token body
is the empty JSON object. -/
theorem empty_token_propagates_witness :
    (registryLogin "alpine:3.19" wEmptyTok).2 = Except.ok "" :=
  (empty_token_propagates "/tmp/docker123" "alpine:3.19" "/bin/sh" wEmptyTok []
    rfl rfl rfl).1

/-- C7: a non-200 status from any of the three registry endpoints makes the
corresponding stage return an error and the run panic before any later
stage: a non-200 token response leaves exactly the token request in the
trace; a non-200 manifest response leaves no blob request, no extraction
and no command launch; a non-200 blob response for a manifest layer means
the command is never launched, that layer is never extracted, and every
blob request in the trace belongs to a manifest prefix whose earlier layers
all answered 200 (no network call after the first failing blob). -/
theorem non200_aborts_pipeline (dir image command : String) (w : World) :
    (w.tokenStatus ≠ 200 →
      (run dir image command w).events = [Event.tokenRequest (authURL (imageName image))] ∧
      (run dir image command w).outcome = Outcome.panicked) ∧
    (w.manifestStatus ≠ 200 →
      (run dir image command w).outcome = Outcome.panicked ∧
      ∀ e ∈ (run dir image command w).events,
        isBlobRequestEv e = false ∧ isExtractedEv e = false ∧ e ≠ Event.commandRun) ∧
    (∀ m0, w.manifestBody = some m0 → ∀ l ∈ m0.Layers, w.blobStatus l.Digest ≠ 200 →
      (run dir image command w).outcome = Outcome.panicked ∧
      Event.commandRun ∉ (run dir image command w).events ∧
      Event.extracted l.Digest ∉ (run dir image command w).events) ∧
    (∀ m0, w.manifestBody = some m0 → ∀ d u a,
      Event.blobRequest d u a ∈ (run dir image command w).events →
      ∃ pre l post, m0.Layers = pre ++ l :: post ∧ l.Digest = d ∧
        ∀ l2 ∈ pre, w.blobStatus l2.Digest = 200) := by
  obtain ⟨houtcome, hmem⟩ := run_cases dir image command w
  refine ⟨?_, ?_, ?_, ?_⟩
  · intro h
    have hL : registryLogin image w =
        ([Event.tokenRequest (authURL (imageName image))], Except.error ()) := by
      simp [registryLogin, h]
    have hrun : run dir image command w =
        ⟨[Event.tokenRequest (authURL (imageName image))], Outcome.panicked⟩ := by
      simp [run, runSetup, hL]
    rw [hrun]
    exact ⟨rfl, rfl⟩
  · intro h
    constructor
    · rcases houtcome with hp | ⟨tok, m, hLok, hFok, hXok, hout⟩
      · exact hp
      · rw [fetchManifest_err tok image w h] at hFok
        cases hFok
    · intro e he
      rcases hmem _ he with hl | ⟨tok, htok, hrest⟩
      · rw [registryLogin_events] at hl
        simp at hl
        subst hl
        exact ⟨rfl, rfl, fun hh => Event.noConfusion hh⟩
      · rcases hrest with hf | ⟨m, hFok, _⟩
        · obtain ⟨u2, heq⟩ := fetchManifest_event_mem tok image w _ hf
          subst heq
          exact ⟨rfl, rfl, fun hh => Event.noConfusion hh⟩
        · rw [fetchManifest_err tok image w h] at hFok
          cases hFok
  · intro m0 hm0 l hl hbad
    refine ⟨?_, ?_, ?_⟩
    · rcases houtcome with hp | ⟨tok, m, hLok, hFok, hXok, hout⟩
      · exact hp
      · have hmb := fetchManifest_ok_body tok image w m hFok
        rw [hm0] at hmb
        injection hmb with hm1
        subst hm1
        exact absurd (extractLayers_ok_all200 tok image (chrootRootOf dir) w m0.Layers
          (fs0Of dir) hXok l hl) hbad
    · intro hin
      rcases hmem _ hin with hl2 | ⟨tok, htok, hrest⟩
      · rw [registryLogin_events] at hl2
        simp at hl2
      · rcases hrest with hf | ⟨m, hFok, hrest2⟩
        · obtain ⟨u2, heq⟩ := fetchManifest_event_mem tok image w _ hf
          cases heq
        · rcases hrest2 with hx | ⟨hXok, _⟩
          · rcases extractLayers_event_shapes tok image (chrootRootOf dir) w m.Layers
              (fs0Of dir) _ hx with ⟨d2, u2, heq⟩ | ⟨d2, heq⟩
            · cases heq
            · cases heq
          · have hmb := fetchManifest_ok_body tok image w m hFok
            rw [hm0] at hmb
            injection hmb with hm1
            subst hm1
            exact absurd (extractLayers_ok_all200 tok image (chrootRootOf dir) w m0.Layers
              (fs0Of dir) hXok l hl) hbad
    · intro hin
      rcases hmem _ hin with hl2 | ⟨tok, htok, hrest⟩
      · rw [registryLogin_events] at hl2
        simp at hl2
      · rcases hrest with hf | ⟨m, hFok, hrest2⟩
        · obtain ⟨u2, heq⟩ := fetchManifest_event_mem tok image w _ hf
          cases heq
        · rcases hrest2 with hx | ⟨_, heq⟩
          · exact absurd (extractLayers_extracted_status tok image (chrootRootOf dir) w
              m.Layers (fs0Of dir) l.Digest hx) hbad
          · cases heq
  · intro m0 hm0 d u a hin
    rcases hmem _ hin with hl2 | ⟨tok, htok, hrest⟩
    · rw [registryLogin_events] at hl2
      simp at hl2
    · rcases hrest with hf | ⟨m, hFok, hrest2⟩
      · obtain ⟨u2, heq⟩ := fetchManifest_event_mem tok image w _ hf
        cases heq
      · rcases hrest2 with hx | ⟨_, heq⟩
        · have hmb := fetchManifest_ok_body tok image w m hFok
          rw [hm0] at hmb
          injection hmb with hm1
          subst hm1
          exact extractLayers_blobReq_prefix tok image (chrootRootOf dir) w m0.Layers
            (fs0Of dir) d u a hx
        · cases heq

/-- C7 witness: a 500 from the token endpoint leaves only the token request
and a panic. -/
theorem non200_aborts_pipeline_witness :
    (run "/tmp/docker123" "alpine:3.19" "/bin/sh" wTok500).events =
      [Event.tokenRequest (authURL (imageName "alpine:3.19"))] ∧
    (run "/tmp/docker123" "alpine:3.19" "/bin/sh" wTok500).outcome = Outcome.panicked :=
  (non200_aborts_pipeline "/tmp/docker123" "alpine:3.19" "/bin/sh" wTok500).1 (by decide)
